import Mathlib

/-!
Verification development for the proximity-competition core of
`companalysis.py` (functions `time_to_destinations` and
`get_closest_locations`).  Python strings are embedded as lists of
characters, numpy float travel times as rationals (only order
comparisons occur, never float arithmetic), and the two fallible
functions as `Except`-valued definitions.  Network traffic of
`time_to_destinations` is abstracted by a provider oracle mapping an
(origin index, destination index) pair to the response of the
directions API, and the list of issued requests is returned alongside
the result so that "no request was made" is expressible.
-/

namespace CompAnalysis

/-- Python strings, embedded as lists of characters. -/
abbrev Str := List Char

/-- The travel-time matrix `times_df`: an n by m pandas DataFrame of
float seconds, rows indexed by origin, columns by destination.  Only
positional access `times_df.iloc[i, j]` occurs in the source, so the
embedding keeps the dimensions and the entry function. -/
structure TravelTimeMatrix where
  n : Nat
  m : Nat
  entry : Nat → Nat → ℚ

/-- Cell (i, j) of the boolean mask `is_within_time = times_df.values < max_time`
(line 476): strict inequality against the threshold. -/
def is_within_time (df : TravelTimeMatrix) (max_time : ℚ) (i j : Nat) : Bool :=
  decide (df.entry i j < max_time)

/-- The eligible cells of the mask in the order `np.nonzero` reports them
(row-major: ascending row, then ascending column inside a row).
`i_arr` and `j_arr` of line 478 are the two projections of this list. -/
def nonzero_cells (df : TravelTimeMatrix) (max_time : ℚ) : List (Nat × Nat) :=
  (List.range df.n).flatMap fun i =>
    ((List.range df.m).filter fun j => is_within_time df max_time i j).map fun j => (i, j)

/-- Row indices of the eligible cells, `i_arr` of line 478. -/
def i_arr (df : TravelTimeMatrix) (max_time : ℚ) : List Nat :=
  (nonzero_cells df max_time).map Prod.fst

/-- Column indices of the eligible cells, `j_arr` of line 478. -/
def j_arr (df : TravelTimeMatrix) (max_time : ℚ) : List Nat :=
  (nonzero_cells df max_time).map Prod.snd

/-- The boolean-mask selection `same_loc = i_arr[j_arr == k]` (line 486):
the entries of `i_arr` at the positions where `j_arr` equals `k`, in order. -/
def same_loc_of (cells : List (Nat × Nat)) (k : Nat) : List Nat :=
  (cells.filter fun c => c.2 == k).map Prod.fst

/-- Specialisation of `same_loc_of` to the eligible cells of a matrix. -/
def same_loc (df : TravelTimeMatrix) (max_time : ℚ) (k : Nat) : List Nat :=
  same_loc_of (nonzero_cells df max_time) k

/-- The inner scan of lines 488-493: `closest_dist` starts at `np.inf`
(modelled by the `none` accumulator; every matrix entry is a finite
rational, hence below infinity, so the first iteration always updates)
and `(closest_dist, closest_loc)` is replaced exactly when the entry is
strictly smaller than the running minimum. -/
def scanStep (e : Nat → Nat → ℚ) (k : Nat) (acc : Option (ℚ × Nat)) (loc : Nat) :
    Option (ℚ × Nat) :=
  match acc with
  | none => some (e loc k, loc)
  | some (d, b) => if e loc k < d then some (e loc k, loc) else some (d, b)

/-- The scan of lines 488-493 as a left fold of `scanStep` starting from
the infinite running minimum. -/
def scanClosest (e : Nat → Nat → ℚ) (k : Nat) (locs : List Nat) : Option (ℚ × Nat) :=
  locs.foldl (scanStep e k) none

/-- State of the loop of lines 484-496: the matrix being read and the two
parallel lists `new_i_list`, `new_j_list` being appended to. -/
structure AssignState where
  times : TravelTimeMatrix
  new_i_list : List Nat
  new_j_list : List Nat

/-- One iteration of `for k in j_arr` (lines 484-496): select the closest
eligible row of column `k` by the strict-update scan and append the pair.
The `none` branch is dead code: every `k` drawn from `j_arr` has a
nonempty `same_loc`, so the scan always produces a value. -/
def assignStep (cells : List (Nat × Nat)) (s : AssignState) (k : Nat) : AssignState :=
  match scanClosest s.times.entry k (same_loc_of cells k) with
  | some (_, loc) => ⟨s.times, s.new_i_list ++ [loc], s.new_j_list ++ [k]⟩
  | none => s

/-- The whole loop of lines 484-496, started from the input matrix and two
empty lists. -/
def runAssign (df : TravelTimeMatrix) (max_time : ℚ) : AssignState :=
  (j_arr df max_time).foldl (assignStep (nonzero_cells df max_time)) ⟨df, [], []⟩

/-- Lines 498-502: `np.argsort` on `new_i_list` followed by fancy-indexing
both lists and zipping them into `comb_arr`.  The argsort is modelled as a
stable sort on the origin component (numpy's introsort runs insertion
sort, which is stable, on the small sub-arrays where tie order could ever
be observed; every sortedness statement proved below is independent of
the tie order). -/
def comb_arr (df : TravelTimeMatrix) (max_time : ℚ) : List (Nat × Nat) :=
  List.insertionSort (fun a b => a.1 ≤ b.1)
    ((runAssign df max_time).new_i_list.zip (runAssign df max_time).new_j_list)

/-- Label of the first line of an assignment block. -/
def originNameLabel : Str := "Origin Name: ".toList

/-- Label of the second line of an assignment block. -/
def originAddressLabel : Str := "Origin Address: ".toList

/-- Label of the third line of an assignment block. -/
def destinationNameLabel : Str := "Destination Name: ".toList

/-- Label of the fourth line of an assignment block. -/
def destinationAddressLabel : Str := "Destination Address: ".toList

/-- The f-string of lines 508-511: four labelled lines, each terminated by
a newline. -/
def renderBlock (onm oad dnm dad : Str) : Str :=
  originNameLabel ++ onm ++ ['\n'] ++
  originAddressLabel ++ oad ++ ['\n'] ++
  destinationNameLabel ++ dnm ++ ['\n'] ++
  destinationAddressLabel ++ dad ++ ['\n']

/-- Line 508-511 applied to a pair of indices: the four fields are read
from the four parallel input lists.  Indexing is modelled by `getD`,
which covers the in-range behaviour (out-of-range indexing raises in
Python; the core's contract makes the list lengths match the matrix
dimensions). -/
def output_string (origin_names origin_addresses destination_names destination_addresses : List Str)
    (i j : Nat) : Str :=
  renderBlock (origin_names.getD i []) (origin_addresses.getD i [])
    (destination_names.getD j []) (destination_addresses.getD j [])

/-- The assignment computation of lines 476-515 on a given matrix: the
returned pair is the matrix as it stands after the loop together with
the rendered `closest_locations` strings. -/
def closest_core (df : TravelTimeMatrix) (max_time : ℚ)
    (origin_names origin_addresses destination_names destination_addresses : List Str) :
    TravelTimeMatrix × List Str :=
  ((runAssign df max_time).times,
   (comb_arr df max_time).map fun p =>
     output_string origin_names origin_addresses destination_names destination_addresses p.1 p.2)

/-- The record one iteration of the loop appends for column `k`: the pair
(selected row, k), or nothing in the dead case of an empty scan. -/
def recOf (times : TravelTimeMatrix) (cells : List (Nat × Nat)) (k : Nat) : Option (Nat × Nat) :=
  (scanClosest times.entry k (same_loc_of cells k)).map fun p => (p.2, k)

/-- The unsorted record list produced by the loop of lines 484-496. -/
def loopPairs (df : TravelTimeMatrix) (max_time : ℚ) : List (Nat × Nat) :=
  (j_arr df max_time).filterMap (recOf df (nonzero_cells df max_time))

/-- The row the scan of lines 488-493 selects for column `k`. -/
def closest_for (df : TravelTimeMatrix) (max_time : ℚ) (k : Nat) : Nat :=
  match scanClosest df.entry k (same_loc df max_time k) with
  | some p => p.2
  | none => 0

/-- Modelled from the spec: the trivial line-splitter used to state the
round-trip property (the repository has no parsing code).  Splits a
character list at every newline, like Python `str.split` on a single
character. -/
def splitOnNl : Str → List Str
  | [] => [[]]
  | c :: rest =>
    if c = '\n' then [] :: splitOnNl rest
    else
      match splitOnNl rest with
      | [] => [[c]]
      | t :: ts => (c :: t) :: ts

/-- Strip a fixed label from the front of a line, failing when the line
does not start with the label. -/
def stripLabel (label line : Str) : Option Str :=
  if line.take label.length = label then some (line.drop label.length) else none

/-- Modelled from the spec: the trivial parser of one rendered block.  A
block must split into exactly the four labelled lines followed by the
empty trailer left by the final newline. -/
def parseBlock (s : Str) : Option (Str × Str × Str × Str) :=
  match splitOnNl s with
  | [l1, l2, l3, l4, e] =>
    if e = [] then
      match stripLabel originNameLabel l1, stripLabel originAddressLabel l2,
          stripLabel destinationNameLabel l3, stripLabel destinationAddressLabel l4 with
      | some a, some b, some c, some d => some (a, b, c, d)
      | _, _, _, _ => none
    else none
  | _ => none

/-! Embedding of `time_to_destinations` (lines 358-442).  The directions
API is abstracted as an oracle from the (origin, destination) index pair
to the response; requests issued are logged so that "no network call was
made" is a statement about the log. -/

/-- Outcome of one `requests.get` against the directions API for a pair:
HTTP 200 with route status OK and the first leg duration of the first
route, HTTP 200 with any other route status, or a non-200 transport
response. -/
inductive ApiResponse where
  | okRoute (duration : ℚ)
  | noRoute (status : Str)
  | httpFailure (code : Nat)

/-- Whether a response is the fatal non-200 case of line 438. -/
def isHttpFailure : ApiResponse → Bool
  | ApiResponse.httpFailure _ => true
  | _ => false

/-- Errors `time_to_destinations` can raise: the ValueError argument
checks of lines 397-408 and the line-438 exception on a non-200
transport response. -/
inductive TTDError where
  | invalidArgument
  | providerError (code : Nat)
deriving DecidableEq

/-- Numpy cell assignment `times_arr[i, j] = v` on the entry function. -/
def update_cell (arr : Nat → Nat → ℚ) (i j : Nat) (v : ℚ) : Nat → Nat → ℚ :=
  fun a b => if a = i ∧ b = j then v else arr a b

/-- The double loop of lines 411-438 over the remaining pairs, carrying
the travel-time array (initialized to zeros), the request log and the
printed no-route warnings.  A non-200 response aborts immediately; a
non-OK route status leaves the cell untouched and records a warning. -/
def run_pairs (provider : Nat → Nat → ApiResponse) :
    List (Nat × Nat) → (Nat → Nat → ℚ) → List (Nat × Nat) → List ((Nat × Nat) × Str) →
    List (Nat × Nat) × Except TTDError ((Nat → Nat → ℚ) × List ((Nat × Nat) × Str))
  | [], arr, log, warns => (log, Except.ok (arr, warns))
  | (i, j) :: rest, arr, log, warns =>
    match provider i j with
    | ApiResponse.okRoute d => run_pairs provider rest (update_cell arr i j d) (log ++ [(i, j)]) warns
    | ApiResponse.noRoute s => run_pairs provider rest arr (log ++ [(i, j)]) (warns ++ [((i, j), s)])
    | ApiResponse.httpFailure c => (log ++ [(i, j)], Except.error (TTDError.providerError c))

/-- The iteration order of the double loop: all (i, j) with i over the
origins and j over the destinations, row-major. -/
def all_pairs (n m : Nat) : List (Nat × Nat) :=
  (List.range n).flatMap fun i => (List.range m).map fun j => (i, j)

/-- Embedding of `time_to_destinations`: the argument checks of lines
397-408 (name lengths against address lengths, credential non-empty) run
before the network loop; the result carries the request log and either
the labelled DataFrame of line 440 (dimensions n by m over the travel
array) together with the warnings, or the error. -/
def time_to_destinations (origin_addresses origin_names destination_addresses
    destination_names : List Str) (apikey : Str) (provider : Nat → Nat → ApiResponse) :
    List (Nat × Nat) × Except TTDError (TravelTimeMatrix × List ((Nat × Nat) × Str)) :=
  let n := origin_addresses.length
  let m := destination_addresses.length
  if origin_names.length ≠ n then ([], Except.error TTDError.invalidArgument)
  else if destination_names.length ≠ m then ([], Except.error TTDError.invalidArgument)
  else if apikey = [] then ([], Except.error TTDError.invalidArgument)
  else
    match run_pairs provider (all_pairs n m) (fun _ _ => 0) [] [] with
    | (log, Except.ok (arr, warns)) => (log, Except.ok (⟨n, m, arr⟩, warns))
    | (log, Except.error e) => (log, Except.error e)

/-- The array after the double loop processes a list of pairs without a
transport failure: each OK response writes its duration, every other
pair leaves the cell as it was. -/
def apply_pairs (provider : Nat → Nat → ApiResponse) (pairs : List (Nat × Nat))
    (arr : Nat → Nat → ℚ) : Nat → Nat → ℚ :=
  pairs.foldl
    (fun a p =>
      match provider p.1 p.2 with
      | ApiResponse.okRoute d => update_cell a p.1 p.2 d
      | _ => a)
    arr

/-- The warnings printed while processing a list of pairs: one per
no-route response, in order. -/
def warns_of (provider : Nat → Nat → ApiResponse) (pairs : List (Nat × Nat)) :
    List ((Nat × Nat) × Str) :=
  pairs.filterMap fun p =>
    match provider p.1 p.2 with
    | ApiResponse.noRoute s => some (p, s)
    | _ => none

/-! Embedding of `get_closest_locations` (lines 446-515). -/

/-- Errors `get_closest_locations` can raise: the pandas ValueError on
evaluating the truth value of a DataFrame, the ValueError of line 471,
and the errors propagated out of `time_to_destinations`. -/
inductive GCLError where
  | truthValueAmbiguous
  | invalidArgument
  | providerError (code : Nat)
deriving DecidableEq

/-- Python `not times_df`: `not None` is True, while `bool(df)` on a
pandas DataFrame unconditionally raises ValueError ("The truth value of
a DataFrame is ambiguous"). -/
def not_times_df : Option TravelTimeMatrix → Except GCLError Bool
  | none => Except.ok true
  | some _ => Except.error GCLError.truthValueAmbiguous

/-- Python `not apikey` for an optional string: true on None and on the
empty string. -/
def not_apikey : Option Str → Bool
  | none => true
  | some k => k == []

/-- Embedding of `get_closest_locations`: the guard of lines 470-471, the
recomputation of lines 473-474 when no matrix was passed, then the
assignment computation of lines 476-515.  The `else` branch of the
recomputation test is dead code, exactly as in the source: evaluating
`not times_df` on a supplied DataFrame has already raised. -/
def get_closest_locations (origin_addresses origin_names destination_addresses
    destination_names : List Str) (max_time : ℚ) (times_df : Option TravelTimeMatrix)
    (apikey : Option Str) (provider : Nat → Nat → ApiResponse) :
    Except GCLError (TravelTimeMatrix × List Str) := do
  let nt1 ← not_times_df times_df
  if nt1 && not_apikey apikey then
    Except.error GCLError.invalidArgument
  else do
    let nt2 ← not_times_df times_df
    let df ←
      if nt2 then
        match (time_to_destinations origin_addresses origin_names destination_addresses
            destination_names (apikey.getD []) provider).2 with
        | Except.ok (dfc, _) => Except.ok dfc
        | Except.error TTDError.invalidArgument => Except.error GCLError.invalidArgument
        | Except.error (TTDError.providerError c) => Except.error (GCLError.providerError c)
      else
        Except.ok (times_df.getD ⟨0, 0, fun _ _ => 0⟩)
    Except.ok (closest_core df max_time origin_names origin_addresses destination_names
      destination_addresses)

/-! Concrete data used to instantiate the theorems below. -/

/-- The worked example of the spec: matrix [[500, 900], [300, 300]]. -/
def mat_spec_example : TravelTimeMatrix :=
  ⟨2, 2, fun i j => if i = 0 then (if j = 0 then 500 else 900) else 300⟩

/-- A single destination column reachable from both origins:
matrix [[100], [200]]. -/
def mat_two_eligible : TravelTimeMatrix :=
  ⟨2, 1, fun i _ => if i = 0 then 100 else 200⟩

/-- Two destination columns both won by origin 0:
matrix [[100, 100], [200, 300]]. -/
def mat_shared_winner : TravelTimeMatrix :=
  ⟨2, 2, fun i j => if i = 0 then 100 else (if j = 0 then 200 else 300)⟩

/-- The boundary example of the spec: matrix [[600]]. -/
def mat_boundary : TravelTimeMatrix := ⟨1, 1, fun _ _ => 600⟩

/-- A one-cell precomputed matrix, as a caller would pass for `times_df`. -/
def mat_one_cell : TravelTimeMatrix := ⟨1, 1, fun _ _ => 100⟩

/-- A provider whose every response is a valid route of 300 seconds. -/
def provider_all_ok : Nat → Nat → ApiResponse := fun _ _ => ApiResponse.okRoute 300

/-- A provider that reports no valid route for every pair. -/
def provider_no_route : Nat → Nat → ApiResponse :=
  fun _ _ => ApiResponse.noRoute "ZERO_RESULTS".toList

/-- A provider whose every response is an HTTP 500 transport failure. -/
def provider_transport_fail : Nat → Nat → ApiResponse :=
  fun _ _ => ApiResponse.httpFailure 500

/-! Characterisation of the loop of lines 484-496. -/

lemma foldl_assignStep (cells : List (Nat × Nat)) :
    ∀ (ks : List Nat) (s : AssignState),
      ks.foldl (assignStep cells) s =
        ⟨s.times,
         s.new_i_list ++ (ks.filterMap (recOf s.times cells)).map Prod.fst,
         s.new_j_list ++ (ks.filterMap (recOf s.times cells)).map Prod.snd⟩ := by
  intro ks
  induction ks with
  | nil => intro s; simp
  | cons k ks ih =>
    intro s
    rw [List.foldl_cons]
    by_cases h : (scanClosest s.times.entry k (same_loc_of cells k)).isSome
    · obtain ⟨⟨d, loc⟩, hp⟩ := Option.isSome_iff_exists.mp h
      have hstep : assignStep cells s k =
          ⟨s.times, s.new_i_list ++ [loc], s.new_j_list ++ [k]⟩ := by
        rw [assignStep, hp]
      rw [hstep, ih]
      simp [recOf, hp, List.filterMap_cons, List.append_assoc]
    · have hnone : scanClosest s.times.entry k (same_loc_of cells k) = none :=
        Option.not_isSome_iff_eq_none.mp h
      have hstep : assignStep cells s k = s := by rw [assignStep, hnone]
      rw [hstep, ih]
      simp [recOf, hnone, List.filterMap_cons]

lemma runAssign_eq (df : TravelTimeMatrix) (max_time : ℚ) :
    runAssign df max_time =
      ⟨df, (loopPairs df max_time).map Prod.fst, (loopPairs df max_time).map Prod.snd⟩ := by
  rw [runAssign, foldl_assignStep]
  simp [loopPairs]

lemma comb_arr_eq (df : TravelTimeMatrix) (max_time : ℚ) :
    comb_arr df max_time =
      List.insertionSort (fun a b => a.1 ≤ b.1) (loopPairs df max_time) := by
  rw [comb_arr, runAssign_eq]
  congr 1
  rw [List.zip_map']
  simp

lemma comb_arr_perm (df : TravelTimeMatrix) (max_time : ℚ) :
    (comb_arr df max_time).Perm (loopPairs df max_time) := by
  rw [comb_arr_eq]
  exact List.perm_insertionSort _ _

/-! Normal forms for the cell list, the mask selection and the column list. -/

lemma mem_nonzero_cells (df : TravelTimeMatrix) (max_time : ℚ) (i j : Nat) :
    (i, j) ∈ nonzero_cells df max_time ↔
      i < df.n ∧ j < df.m ∧ df.entry i j < max_time := by
  simp only [nonzero_cells, List.mem_flatMap, List.mem_map, List.mem_filter, List.mem_range,
    is_within_time, decide_eq_true_eq, Prod.mk.injEq]
  constructor
  · rintro ⟨a, ha, b, ⟨hb, hab⟩, rfl, rfl⟩
    exact ⟨ha, hb, hab⟩
  · rintro ⟨hi, hj, hij⟩
    exact ⟨i, hi, j, ⟨hj, hij⟩, rfl, rfl⟩

lemma filter_beq_range (m k : Nat) (q : Nat → Bool) :
    (List.range m).filter (fun j => (j == k) && q j) =
      if k < m ∧ q k = true then [k] else [] := by
  induction m with
  | zero => simp
  | succ m ih =>
    rw [List.range_succ, List.filter_append, ih]
    by_cases hk : k < m
    · have : ¬ (m == k) = true := by simp; omega
      simp [hk, this, Nat.lt_succ_of_lt hk]
    · by_cases he : m = k
      · subst he
        by_cases hq : q m = true <;> simp [hq, hk, Nat.lt_succ_self]
      · have h1 : ¬ (m == k) = true := by simp [he]
        have h2 : ¬ k < m + 1 := by omega
        simp [hk, h1, h2]

lemma flatMap_opt_filter (l : List Nat) (c : Nat → Bool) :
    (l.flatMap fun i => if c i = true then [i] else []) = l.filter c := by
  induction l with
  | nil => rfl
  | cons x l ih =>
    by_cases hx : c x = true <;> simp [List.flatMap_cons, hx, ih, List.filter_cons]

lemma same_loc_eq (df : TravelTimeMatrix) (max_time : ℚ) (k : Nat) :
    same_loc df max_time k =
      (List.range df.n).filter
        (fun i => decide (k < df.m) && is_within_time df max_time i k) := by
  rw [same_loc, same_loc_of, nonzero_cells, List.filter_flatMap, List.map_flatMap]
  have hrow : ∀ i : Nat,
      ((((List.range df.m).filter fun j => is_within_time df max_time i j).map
          fun j => (i, j)).filter fun c => c.2 == k).map Prod.fst =
        if (decide (k < df.m) && is_within_time df max_time i k) = true then [i] else [] := by
    intro i
    rw [List.filter_map, List.map_map]
    have hff : ((List.range df.m).filter fun j => is_within_time df max_time i j).filter
        ((fun c : Nat × Nat => c.2 == k) ∘ fun j => (i, j)) =
        (List.range df.m).filter fun j => (j == k) && is_within_time df max_time i j := by
      rw [List.filter_filter]
      rfl
    rw [hff, filter_beq_range]
    by_cases h1 : k < df.m
    · by_cases h2 : is_within_time df max_time i k = true
      · simp [h1, h2]
      · simp [h1, h2]
    · simp [h1]
  simp only [hrow]
  exact flatMap_opt_filter _ _

lemma mem_same_loc (df : TravelTimeMatrix) (max_time : ℚ) (k i : Nat) :
    i ∈ same_loc df max_time k ↔ i < df.n ∧ k < df.m ∧ df.entry i k < max_time := by
  rw [same_loc_eq]
  simp [List.mem_filter, List.mem_range, is_within_time, and_assoc]

lemma same_loc_sorted (df : TravelTimeMatrix) (max_time : ℚ) (k : Nat) :
    (same_loc df max_time k).Pairwise (· < ·) := by
  rw [same_loc_eq]
  exact (List.pairwise_lt_range _).filter _

lemma mem_j_arr (df : TravelTimeMatrix) (max_time : ℚ) (k : Nat) :
    k ∈ j_arr df max_time ↔ k < df.m ∧ ∃ i < df.n, df.entry i k < max_time := by
  constructor
  · rintro hk
    obtain ⟨⟨i, j⟩, hc, rfl⟩ := List.mem_map.mp hk
    obtain ⟨hi, hj, he⟩ := (mem_nonzero_cells df max_time i j).mp hc
    exact ⟨hj, i, hi, he⟩
  · rintro ⟨hk, i, hi, he⟩
    exact List.mem_map.mpr ⟨(i, k), (mem_nonzero_cells df max_time i k).mpr ⟨hi, hk, he⟩, rfl⟩

lemma same_loc_ne_nil (df : TravelTimeMatrix) (max_time : ℚ) (k : Nat)
    (hk : k ∈ j_arr df max_time) : same_loc df max_time k ≠ [] := by
  obtain ⟨hm, i, hi, he⟩ := (mem_j_arr df max_time k).mp hk
  exact List.ne_nil_of_mem ((mem_same_loc df max_time k i).mpr ⟨hi, hm, he⟩)

/-! Specification of the strict-update scan. -/

lemma scan_fold_isSome (e : Nat → Nat → ℚ) (k : Nat) :
    ∀ (xs : List Nat) (p : ℚ × Nat), ∃ q, xs.foldl (scanStep e k) (some p) = some q := by
  intro xs
  induction xs with
  | nil => intro p; exact ⟨p, rfl⟩
  | cons x xs ih =>
    intro p
    rw [List.foldl_cons]
    rcases p with ⟨d, b⟩
    by_cases h : e x k < d
    · simpa [scanStep, h] using ih (e x k, x)
    · simpa [scanStep, h] using ih (d, b)

lemma scanClosest_isSome (e : Nat → Nat → ℚ) (k : Nat) (locs : List Nat) (h : locs ≠ []) :
    ∃ q, scanClosest e k locs = some q := by
  rcases locs with _ | ⟨x, xs⟩
  · exact absurd rfl h
  · rw [scanClosest, List.foldl_cons]
    exact scan_fold_isSome e k xs (e x k, x)

lemma scan_fold_spec (e : Nat → Nat → ℚ) (k : Nat) :
    ∀ (xs : List Nat) (d : ℚ) (b : Nat),
      e b k = d → (∀ l ∈ xs, b < l) → xs.Pairwise (· < ·) →
      ∃ d' b',
        xs.foldl (scanStep e k) (some (d, b)) = some (d', b') ∧
        e b' k = d' ∧
        ((b' = b ∧ d' = d) ∨ (b' ∈ xs ∧ d' < d)) ∧
        (∀ l, l = b ∨ l ∈ xs → d' < e l k ∨ (d' = e l k ∧ b' ≤ l)) := by
  intro xs
  induction xs with
  | nil =>
    intro d b hd _ _
    refine ⟨d, b, rfl, hd, Or.inl ⟨rfl, rfl⟩, ?_⟩
    rintro l (rfl | hl)
    · exact Or.inr ⟨hd.symm, le_refl l⟩
    · exact absurd hl (List.not_mem_nil l)
  | cons x xs ih =>
    intro d b hd hb hp
    rw [List.foldl_cons]
    have hbx : b < x := hb x (List.mem_cons_self x xs)
    have hxs : ∀ l ∈ xs, x < l := fun l hl => (List.pairwise_cons.mp hp).1 l hl
    have hps : xs.Pairwise (· < ·) := (List.pairwise_cons.mp hp).2
    by_cases hlt : e x k < d
    · have hstep : scanStep e k (some (d, b)) x = some (e x k, x) := by
        simp [scanStep, hlt]
      rw [hstep]
      obtain ⟨d', b', hfold, hd', hmem, hmin⟩ := ih (e x k) x rfl hxs hps
      have hle : d' ≤ e x k := by
        rcases hmem with ⟨_, hd1⟩ | ⟨_, hdx'⟩
        · exact le_of_eq hd1
        · exact le_of_lt hdx'
      refine ⟨d', b', hfold, hd', ?_, ?_⟩
      · rcases hmem with ⟨hb1, hd1⟩ | ⟨hbx', hdx'⟩
        · exact Or.inr ⟨hb1 ▸ List.mem_cons_self x xs, hd1 ▸ hlt⟩
        · exact Or.inr ⟨List.mem_cons_of_mem x hbx', lt_trans hdx' hlt⟩
      · rintro l (hlb | hl)
        · exact Or.inl (lt_of_le_of_lt hle (hlb ▸ hd ▸ hlt))
        · exact hmin l (List.mem_cons.mp hl)
    · have hstep : scanStep e k (some (d, b)) x = some (d, b) := by
        simp [scanStep, hlt]
      rw [hstep]
      have hbxs : ∀ l ∈ xs, b < l := fun l hl => lt_trans hbx (hxs l hl)
      obtain ⟨d', b', hfold, hd', hmem, hmin⟩ := ih d b hd hbxs hps
      refine ⟨d', b', hfold, hd', ?_, ?_⟩
      · rcases hmem with ⟨hb1, hd1⟩ | ⟨hbx', hdx'⟩
        · exact Or.inl ⟨hb1, hd1⟩
        · exact Or.inr ⟨List.mem_cons_of_mem x hbx', hdx'⟩
      · rintro l (hlb | hl)
        · exact hmin l (Or.inl hlb)
        · rcases List.mem_cons.mp hl with hlx | hl'
          · have hdle : d ≤ e l k := hlx ▸ le_of_not_lt hlt
            rcases hmem with ⟨hb1, hd1⟩ | ⟨_, hdx'⟩
            · rcases lt_or_eq_of_le hdle with h | h
              · exact Or.inl (hd1 ▸ h)
              · exact Or.inr ⟨hd1.trans h, hb1 ▸ le_of_lt (hlx ▸ hbx)⟩
            · exact Or.inl (lt_of_lt_of_le hdx' hdle)
          · exact hmin l (Or.inr hl')

lemma scanClosest_spec (e : Nat → Nat → ℚ) (k : Nat) (locs : List Nat)
    (hne : locs ≠ []) (hsorted : locs.Pairwise (· < ·)) :
    ∃ d' b', scanClosest e k locs = some (d', b') ∧ e b' k = d' ∧ b' ∈ locs ∧
      ∀ l ∈ locs, d' < e l k ∨ (d' = e l k ∧ b' ≤ l) := by
  rcases locs with _ | ⟨x, xs⟩
  · exact absurd rfl hne
  · rw [scanClosest, List.foldl_cons]
    have hstep : scanStep e k none x = some (e x k, x) := rfl
    rw [hstep]
    have hxs : ∀ l ∈ xs, x < l := fun l hl => (List.pairwise_cons.mp hsorted).1 l hl
    obtain ⟨d', b', hfold, hd', hmem, hmin⟩ :=
      scan_fold_spec e k xs (e x k) x rfl hxs (List.pairwise_cons.mp hsorted).2
    refine ⟨d', b', hfold, hd', ?_, ?_⟩
    · rcases hmem with ⟨hb1, _⟩ | ⟨hb, _⟩
      · exact hb1 ▸ List.mem_cons_self x xs
      · exact List.mem_cons_of_mem x hb
    · intro l hl
      exact hmin l (by rcases List.mem_cons.mp hl with rfl | h; exact Or.inl rfl; exact Or.inr h)

/-! The loop produces one record per eligible cell, in column-scan order. -/

lemma filterMap_eq_map_of_some {α β : Type} (f : α → Option β) (g : α → β) :
    ∀ l : List α, (∀ a ∈ l, f a = some (g a)) → l.filterMap f = l.map g := by
  intro l
  induction l with
  | nil => intro _; rfl
  | cons x l ih =>
    intro h
    rw [List.filterMap_cons, h x (List.mem_cons_self x l), List.map_cons,
      ih fun a ha => h a (List.mem_cons_of_mem x ha)]

lemma recOf_eq_some (df : TravelTimeMatrix) (max_time : ℚ) (k : Nat)
    (hk : k ∈ j_arr df max_time) :
    recOf df (nonzero_cells df max_time) k = some (closest_for df max_time k, k) := by
  obtain ⟨⟨d, b⟩, hq⟩ := scanClosest_isSome df.entry k (same_loc df max_time k)
    (same_loc_ne_nil df max_time k hk)
  have hsl : same_loc_of (nonzero_cells df max_time) k = same_loc df max_time k := rfl
  rw [recOf, hsl, hq, closest_for, hq]
  rfl

lemma loopPairs_eq (df : TravelTimeMatrix) (max_time : ℚ) :
    loopPairs df max_time =
      (j_arr df max_time).map fun k => (closest_for df max_time k, k) := by
  exact filterMap_eq_map_of_some _ _ _ fun k hk => recOf_eq_some df max_time k hk

lemma closest_for_spec (df : TravelTimeMatrix) (max_time : ℚ) (k : Nat)
    (hk : k ∈ j_arr df max_time) :
    (closest_for df max_time k < df.n ∧ k < df.m ∧
      df.entry (closest_for df max_time k) k < max_time) ∧
    ∀ i, i < df.n → df.entry i k < max_time →
      df.entry (closest_for df max_time k) k < df.entry i k ∨
      (df.entry (closest_for df max_time k) k = df.entry i k ∧ closest_for df max_time k ≤ i) := by
  obtain ⟨d', b', hq, hd', hbmem, hmin⟩ := scanClosest_spec df.entry k (same_loc df max_time k)
    (same_loc_ne_nil df max_time k hk) (same_loc_sorted df max_time k)
  have hcf : closest_for df max_time k = b' := by rw [closest_for, hq]
  obtain ⟨hbn, hkm, hbe⟩ := (mem_same_loc df max_time k b').mp hbmem
  refine ⟨⟨hcf ▸ hbn, hkm, hcf ▸ hbe⟩, ?_⟩
  intro i hi hie
  have himem : i ∈ same_loc df max_time k := (mem_same_loc df max_time k i).mpr ⟨hi, hkm, hie⟩
  rcases hmin i himem with h | ⟨h1, h2⟩
  · exact Or.inl (hcf ▸ hd' ▸ h)
  · exact Or.inr ⟨hcf ▸ hd' ▸ h1, hcf ▸ h2⟩

lemma length_filter_loopPairs (df : TravelTimeMatrix) (max_time : ℚ) (j : Nat) :
    ((loopPairs df max_time).filter fun p => p.2 == j).length =
      (same_loc df max_time j).length := by
  rw [loopPairs_eq, List.filter_map]
  rw [List.length_map]
  have hcomp : ((fun p : Nat × Nat => p.2 == j) ∘ fun k => (closest_for df max_time k, k)) =
      fun k => k == j := rfl
  rw [hcomp, j_arr, List.filter_map]
  have hcomp2 : ((fun k => k == j) ∘ (Prod.snd : Nat × Nat → Nat)) =
      fun c : Nat × Nat => c.2 == j := rfl
  rw [hcomp2, List.length_map, same_loc, same_loc_of, List.length_map]

lemma length_loopPairs (df : TravelTimeMatrix) (max_time : ℚ) :
    (loopPairs df max_time).length = (nonzero_cells df max_time).length := by
  rw [loopPairs_eq, List.length_map, j_arr, List.length_map]

lemma run_pairs_ok (provider : Nat → Nat → ApiResponse) :
    ∀ (pairs : List (Nat × Nat)) (arr : Nat → Nat → ℚ) (log : List (Nat × Nat))
      (warns : List ((Nat × Nat) × Str)),
      (∀ p ∈ pairs, isHttpFailure (provider p.1 p.2) = false) →
      run_pairs provider pairs arr log warns =
        (log ++ pairs, Except.ok (apply_pairs provider pairs arr, warns ++ warns_of provider pairs)) := by
  intro pairs
  induction pairs with
  | nil => intro arr log warns _; simp [run_pairs, apply_pairs, warns_of]
  | cons p rest ih =>
    rcases p with ⟨i, j⟩
    intro arr log warns h
    have hp := h (i, j) (List.mem_cons_self _ _)
    cases hpr : provider i j with
    | okRoute d =>
      simp only [run_pairs, hpr]
      rw [ih _ _ _ fun q hq => h q (List.mem_cons_of_mem _ hq)]
      simp [apply_pairs, warns_of, hpr, List.filterMap_cons, List.append_assoc]
    | noRoute s =>
      simp only [run_pairs, hpr]
      rw [ih _ _ _ fun q hq => h q (List.mem_cons_of_mem _ hq)]
      simp [apply_pairs, warns_of, hpr, List.filterMap_cons, List.append_assoc]
    | httpFailure c =>
      simp [isHttpFailure, hpr] at hp

lemma run_pairs_err (provider : Nat → Nat → ApiResponse) :
    ∀ (pairs : List (Nat × Nat)) (arr : Nat → Nat → ℚ) (log : List (Nat × Nat))
      (warns : List ((Nat × Nat) × Str)),
      (∃ p ∈ pairs, isHttpFailure (provider p.1 p.2) = true) →
      ∃ log' c, run_pairs provider pairs arr log warns =
        (log', Except.error (TTDError.providerError c)) := by
  intro pairs
  induction pairs with
  | nil => rintro arr log warns ⟨p, hp, _⟩; exact absurd hp (List.not_mem_nil p)
  | cons p rest ih =>
    rcases p with ⟨i, j⟩
    rintro arr log warns ⟨q, hq, hfail⟩
    cases hpr : provider i j with
    | okRoute d =>
      rcases List.mem_cons.mp hq with rfl | hq'
      · rw [hpr] at hfail
        simp [isHttpFailure] at hfail
      · simp only [run_pairs, hpr]
        exact ih _ _ _ ⟨q, hq', hfail⟩
    | noRoute s =>
      rcases List.mem_cons.mp hq with rfl | hq'
      · rw [hpr] at hfail
        simp [isHttpFailure] at hfail
      · simp only [run_pairs, hpr]
        exact ih _ _ _ ⟨q, hq', hfail⟩
    | httpFailure c =>
      simp only [run_pairs, hpr]
      exact ⟨log ++ [(i, j)], c, rfl⟩

lemma apply_pairs_cons (provider : Nat → Nat → ApiResponse) (i j : Nat)
    (rest : List (Nat × Nat)) (arr : Nat → Nat → ℚ) :
    apply_pairs provider ((i, j) :: rest) arr =
      apply_pairs provider rest
        (match provider i j with
         | ApiResponse.okRoute d => update_cell arr i j d
         | _ => arr) := rfl

lemma update_cell_same (arr : Nat → Nat → ℚ) (i j : Nat) (v : ℚ) :
    update_cell arr i j v i j = v := by
  simp [update_cell]

lemma update_cell_other (arr : Nat → Nat → ℚ) (a b i j : Nat) (v : ℚ)
    (h : (i, j) ≠ (a, b)) : update_cell arr a b v i j = arr i j := by
  have hne : ¬ (i = a ∧ j = b) := fun ⟨h1, h2⟩ => h (by rw [h1, h2])
  simp [update_cell, hne]

lemma apply_pairs_not_mem (provider : Nat → Nat → ApiResponse) :
    ∀ (pairs : List (Nat × Nat)) (arr : Nat → Nat → ℚ) (i j : Nat),
      (i, j) ∉ pairs → apply_pairs provider pairs arr i j = arr i j := by
  intro pairs
  induction pairs with
  | nil => intro arr i j _; rfl
  | cons q rest ih =>
    rcases q with ⟨a, b⟩
    intro arr i j hmem
    have hne : (i, j) ≠ (a, b) := fun hcontra => hmem (hcontra ▸ List.mem_cons_self _ _)
    have hrest : (i, j) ∉ rest := fun hcontra => hmem (List.mem_cons_of_mem _ hcontra)
    rw [apply_pairs_cons]
    cases hpr : provider a b with
    | okRoute d =>
      simp only [hpr]
      rw [ih (update_cell arr a b d) i j hrest, update_cell_other arr a b i j d hne]
    | noRoute s =>
      simp only [hpr]
      exact ih arr i j hrest
    | httpFailure c =>
      simp only [hpr]
      exact ih arr i j hrest

lemma apply_pairs_mem (provider : Nat → Nat → ApiResponse) :
    ∀ (pairs : List (Nat × Nat)) (arr : Nat → Nat → ℚ) (i j : Nat),
      pairs.Nodup → (i, j) ∈ pairs →
      apply_pairs provider pairs arr i j =
        match provider i j with
        | ApiResponse.okRoute d => d
        | _ => arr i j := by
  intro pairs
  induction pairs with
  | nil => intro arr i j _ hmem; exact absurd hmem (List.not_mem_nil _)
  | cons q rest ih =>
    rcases q with ⟨a, b⟩
    intro arr i j hnodup hmem
    rcases List.mem_cons.mp hmem with heq | hmem'
    · obtain ⟨ha, hb⟩ : i = a ∧ j = b :=
        ⟨congrArg Prod.fst heq, congrArg Prod.snd heq⟩
      subst ha
      subst hb
      have hnotin : (i, j) ∉ rest := (List.nodup_cons.mp hnodup).1
      rw [apply_pairs_cons]
      cases hpr : provider i j with
      | okRoute d =>
        simp only [hpr]
        rw [apply_pairs_not_mem provider rest _ i j hnotin, update_cell_same]
      | noRoute s =>
        simp only [hpr]
        exact apply_pairs_not_mem provider rest arr i j hnotin
      | httpFailure c =>
        simp only [hpr]
        exact apply_pairs_not_mem provider rest arr i j hnotin
    · have hne : (i, j) ≠ (a, b) := by
        intro hcontra
        rw [← hcontra] at hnodup
        exact (List.nodup_cons.mp hnodup).1 hmem'
      rw [apply_pairs_cons]
      cases hpr : provider a b with
      | okRoute d =>
        simp only [hpr]
        rw [ih (update_cell arr a b d) i j (List.nodup_cons.mp hnodup).2 hmem',
          update_cell_other arr a b i j d hne]
      | noRoute s =>
        simp only [hpr]
        exact ih arr i j (List.nodup_cons.mp hnodup).2 hmem'
      | httpFailure c =>
        simp only [hpr]
        exact ih arr i j (List.nodup_cons.mp hnodup).2 hmem'

lemma mem_warns_of (provider : Nat → Nat → ApiResponse) (pairs : List (Nat × Nat))
    (i j : Nat) (s : Str) :
    ((i, j), s) ∈ warns_of provider pairs ↔
      (i, j) ∈ pairs ∧ provider i j = ApiResponse.noRoute s := by
  rw [warns_of, List.mem_filterMap]
  constructor
  · rintro ⟨⟨a, b⟩, hmem, hsome⟩
    cases hpr : provider a b with
    | okRoute d => rw [hpr] at hsome; simp at hsome
    | httpFailure c => rw [hpr] at hsome; simp at hsome
    | noRoute s' =>
      rw [hpr] at hsome
      simp only [Option.some.injEq, Prod.mk.injEq] at hsome
      obtain ⟨⟨h1, h2⟩, h3⟩ := hsome
      rw [← h1, ← h2, ← h3] at *
      exact ⟨hmem, hpr⟩
  · rintro ⟨hmem, hpr⟩
    exact ⟨(i, j), hmem, by rw [hpr]⟩

lemma mem_all_pairs (n m i j : Nat) : (i, j) ∈ all_pairs n m ↔ i < n ∧ j < m := by
  simp only [all_pairs, List.mem_flatMap, List.mem_map, List.mem_range, Prod.mk.injEq]
  constructor
  · rintro ⟨a, ha, b, hb, rfl, rfl⟩
    exact ⟨ha, hb⟩
  · rintro ⟨hi, hj⟩
    exact ⟨i, hi, j, hj, rfl, rfl⟩

lemma nodup_all_pairs (n m : Nat) : (all_pairs n m).Nodup := by
  have heq : all_pairs n m = (List.range n) ×ˢ (List.range m) := rfl
  rw [heq]
  exact (List.nodup_range n).product (List.nodup_range m)

/-! Rendering and splitting of assignment blocks. -/

lemma stripLabel_append (label s : Str) : stripLabel label (label ++ s) = some s := by
  rw [stripLabel, List.take_left, List.drop_left]
  simp

lemma splitOnNl_append (a rest : Str) (h : '\n' ∉ a) :
    splitOnNl (a ++ '\n' :: rest) = a :: splitOnNl rest := by
  induction a with
  | nil => simp [splitOnNl]
  | cons c a ih =>
    have hc : ¬ c = '\n' := fun hcc => h (hcc ▸ List.mem_cons_self c a)
    have ha : '\n' ∉ a := fun hmem => h (List.mem_cons_of_mem c hmem)
    show splitOnNl (c :: (a ++ '\n' :: rest)) = (c :: a) :: splitOnNl rest
    rw [splitOnNl, if_neg hc, ih ha]

lemma splitOnNl_renderBlock (onm oad dnm dad : Str)
    (h1 : '\n' ∉ onm) (h2 : '\n' ∉ oad) (h3 : '\n' ∉ dnm) (h4 : '\n' ∉ dad) :
    splitOnNl (renderBlock onm oad dnm dad) =
      [originNameLabel ++ onm, originAddressLabel ++ oad,
       destinationNameLabel ++ dnm, destinationAddressLabel ++ dad, []] := by
  have hn1 : '\n' ∉ originNameLabel ++ onm := by
    intro hm
    rcases List.mem_append.mp hm with hl | hl
    · revert hl; decide
    · exact h1 hl
  have hn2 : '\n' ∉ originAddressLabel ++ oad := by
    intro hm
    rcases List.mem_append.mp hm with hl | hl
    · revert hl; decide
    · exact h2 hl
  have hn3 : '\n' ∉ destinationNameLabel ++ dnm := by
    intro hm
    rcases List.mem_append.mp hm with hl | hl
    · revert hl; decide
    · exact h3 hl
  have hn4 : '\n' ∉ destinationAddressLabel ++ dad := by
    intro hm
    rcases List.mem_append.mp hm with hl | hl
    · revert hl; decide
    · exact h4 hl
  have hshape : renderBlock onm oad dnm dad =
      (originNameLabel ++ onm) ++ '\n' ::
        ((originAddressLabel ++ oad) ++ '\n' ::
          ((destinationNameLabel ++ dnm) ++ '\n' ::
            ((destinationAddressLabel ++ dad) ++ '\n' :: []))) := by
    simp [renderBlock, List.append_assoc]
  rw [hshape, splitOnNl_append _ _ hn1, splitOnNl_append _ _ hn2,
    splitOnNl_append _ _ hn3, splitOnNl_append _ _ hn4]
  rfl

/-! Settlement of the claims. -/

/-- Claim C1: the claim asserts that supplying a precomputed matrix and no
credential raises no error and proceeds; on the code, evaluating
`not times_df` on any supplied DataFrame raises the pandas truth-value
ValueError, so the call fails whether or not a credential accompanies the
matrix, while the credential ValueError is indeed raised when neither is
supplied.  This theorem evaluates the embedding at those inputs. -/
theorem C1_truth_value_evaluation :
    get_closest_locations ["A".toList] ["B".toList] ["C".toList] ["D".toList] 600
        (some mat_one_cell) none provider_all_ok =
      Except.error GCLError.truthValueAmbiguous ∧
    get_closest_locations ["A".toList] ["B".toList] ["C".toList] ["D".toList] 600
        (some mat_one_cell) (some "K".toList) provider_all_ok =
      Except.error GCLError.truthValueAmbiguous ∧
    get_closest_locations ["A".toList] ["B".toList] ["C".toList] ["D".toList] 600
        none none provider_all_ok =
      Except.error GCLError.invalidArgument := by
  refine ⟨rfl, rfl, rfl⟩

/-- Claim C2 counterexample: in the matrix [[100], [200]] with threshold
600, destination column 0 has an eligible row, yet two records (not
exactly one) are emitted for it, because the loop iterates once per
eligible cell. -/
theorem C2_counterexample :
    is_within_time mat_two_eligible 600 0 0 = true ∧
    ((comb_arr mat_two_eligible 600).filter fun p => p.2 == 0).length ≠ 1 := by
  decide

/-- Claim C2 as amended: for every destination column the number of
emitted records equals the number of eligible rows of that column (so a
column with no eligible row yields no record, and a column with e
eligible rows yields e records, not one). -/
theorem C2_amended_per_column_count (df : TravelTimeMatrix) (max_time : ℚ) (j : Nat) :
    ((comb_arr df max_time).filter fun p => p.2 == j).length =
      (same_loc df max_time j).length := by
  rw [((comb_arr_perm df max_time).filter _).length_eq, length_filter_loopPairs]

/-- Claim C3: the number of assignment strings equals the number of
matrix cells strictly below the threshold, and all records of one
destination column carry the same winning pair. -/
theorem C3_record_count (df : TravelTimeMatrix) (max_time : ℚ)
    (onames oaddrs dnames daddrs : List Str) :
    ((closest_core df max_time onames oaddrs dnames daddrs).2).length =
      (nonzero_cells df max_time).length ∧
    ∀ p q : Nat × Nat, p ∈ comb_arr df max_time → q ∈ comb_arr df max_time →
      p.2 = q.2 → p = q := by
  constructor
  · rw [closest_core]
    simp only [List.length_map]
    rw [(comb_arr_perm df max_time).length_eq, length_loopPairs]
  · intro p q hp hq hpq
    have hp' := (comb_arr_perm df max_time).mem_iff.mp hp
    have hq' := (comb_arr_perm df max_time).mem_iff.mp hq
    rw [loopPairs_eq] at hp' hq'
    obtain ⟨kp, _, hkp⟩ := List.mem_map.mp hp'
    obtain ⟨kq, _, hkq⟩ := List.mem_map.mp hq'
    have hkp2 : kp = p.2 := congrArg Prod.snd hkp
    have hkq2 : kq = q.2 := congrArg Prod.snd hkq
    rw [← hkp, ← hkq, hkp2, hkq2, hpq]

/-- Witness for C3 at the matrix [[100], [200]], threshold 600. -/
theorem C3_witness :
    (0, 0) ∈ comb_arr mat_two_eligible 600 ∧ ((0, 0) : Nat × Nat) = (0, 0) :=
  ⟨by decide,
    (C3_record_count mat_two_eligible 600 [] [] [] []).2 (0, 0) (0, 0)
      (by decide) (by decide) rfl⟩

/-- Claim C4: every emitted record names an eligible cell whose row
attains the minimum travel time of its column among eligible rows, with
ties resolved to the lowest row index; in particular a column with a
unique eligible row selects that row. -/
theorem C4_winner_minimal (df : TravelTimeMatrix) (max_time : ℚ) (p : Nat × Nat)
    (hp : p ∈ comb_arr df max_time) :
    (p.1 < df.n ∧ p.2 < df.m ∧ df.entry p.1 p.2 < max_time) ∧
    (∀ i, i < df.n → df.entry i p.2 < max_time →
      df.entry p.1 p.2 < df.entry i p.2 ∨
      (df.entry p.1 p.2 = df.entry i p.2 ∧ p.1 ≤ i)) ∧
    (∀ i₀, (∀ i, (i < df.n ∧ df.entry i p.2 < max_time) ↔ i = i₀) → p.1 = i₀) := by
  have hp' := (comb_arr_perm df max_time).mem_iff.mp hp
  rw [loopPairs_eq] at hp'
  obtain ⟨k, hk, hkp⟩ := List.mem_map.mp hp'
  subst hkp
  obtain ⟨⟨hn, hm, he⟩, hmin⟩ := closest_for_spec df max_time k hk
  exact ⟨⟨hn, hm, he⟩, fun i hi hei => hmin i hi hei,
    fun i₀ hiff => (hiff _).mp ⟨hn, he⟩⟩

/-- Witness for C4 at the spec example [[500, 900], [300, 300]]: the
record for destination 0 selects origin 1 (300 beats 500). -/
theorem C4_witness :
    (1, 0) ∈ comb_arr mat_spec_example 600 ∧
    (1 < mat_spec_example.n ∧ 0 < mat_spec_example.m ∧
      mat_spec_example.entry 1 0 < 600) :=
  ⟨by decide, (C4_winner_minimal mat_spec_example 600 (1, 0) (by decide)).1⟩

/-- Claim C5: eligibility uses strict inequality, so a selected cell is
always strictly below the threshold, and the one-cell matrix [[600]]
with threshold 600 yields no assignment. -/
theorem C5_strict_threshold :
    (∀ (df : TravelTimeMatrix) (max_time : ℚ) (p : Nat × Nat),
      p ∈ comb_arr df max_time → df.entry p.1 p.2 < max_time) ∧
    closest_core mat_boundary 600 [] [] [] [] = (mat_boundary, []) := by
  constructor
  · intro df max_time p hp
    have hp' := (comb_arr_perm df max_time).mem_iff.mp hp
    rw [loopPairs_eq] at hp'
    obtain ⟨k, hk, hkp⟩ := List.mem_map.mp hp'
    subst hkp
    exact (closest_for_spec df max_time k hk).1.2.2
  · rfl

/-- Witness for C5 at the spec example: the record (1, 1) is strictly
inside the threshold. -/
theorem C5_witness :
    (1, 1) ∈ comb_arr mat_spec_example 600 ∧ mat_spec_example.entry 1 1 < 600 :=
  ⟨by decide, C5_strict_threshold.1 mat_spec_example 600 (1, 1) (by decide)⟩

/-- Claim C6 counterexample: in the matrix [[100, 100], [200, 300]] with
threshold 600 origin 0 wins both columns, each twice, and the output is
(0,0), (0,1), (0,0), (0,1): among records of equal origin index the
destination indices are not ascending, refuting the claim's reading of
the tie order. -/
theorem C6_counterexample :
    comb_arr mat_shared_winner 600 = [(0, 0), (0, 1), (0, 0), (0, 1)] ∧
    ¬ List.Pairwise (fun a b : Nat × Nat => a.1 = b.1 → a.2 ≤ b.2)
        (comb_arr mat_shared_winner 600) := by
  decide

/-- Claim C6 as amended: the records are sorted by origin row index
ascending (ties keep the eligible-cell scan order, under which
destination indices of one origin may repeat and need not ascend). -/
theorem C6_amended_sorted_by_origin (df : TravelTimeMatrix) (max_time : ℚ) :
    List.Pairwise (fun a b : Nat × Nat => a.1 ≤ b.1) (comb_arr df max_time) := by
  rw [comb_arr_eq]
  exact @List.sorted_insertionSort (Nat × Nat) (fun a b => a.1 ≤ b.1) _
    ⟨fun a b => Nat.le_total a.1 b.1⟩ ⟨fun a b c hab hbc => le_trans hab hbc⟩
    (loopPairs df max_time)

/-- Claim C7: the assignment computation returns its travel-time matrix
unchanged as the first component; the loop threads the matrix through
every iteration and never writes to it. -/
theorem C7_matrix_passthrough (df : TravelTimeMatrix) (max_time : ℚ)
    (onames oaddrs dnames daddrs : List Str) :
    (closest_core df max_time onames oaddrs dnames daddrs).1 = df := by
  show (runAssign df max_time).times = df
  rw [runAssign_eq]

/-- Claim C8 counterexample: a field containing a newline breaks the
round trip: rendering the origin name consisting of A, newline, B
produces a six-line block that the line-splitter no longer parses. -/
theorem C8_counterexample :
    parseBlock (renderBlock ('A' :: '\n' :: ['B']) "B".toList "C".toList "D".toList) ≠
      some (('A' :: '\n' :: ['B']), "B".toList, "C".toList, "D".toList) := by
  decide

/-- Claim C8 as amended: for fields free of newline characters, rendering
an assignment record and splitting the block on line boundaries recovers
the four field values exactly. -/
theorem C8_amended_round_trip (onm oad dnm dad : Str)
    (h1 : '\n' ∉ onm) (h2 : '\n' ∉ oad) (h3 : '\n' ∉ dnm) (h4 : '\n' ∉ dad) :
    parseBlock (renderBlock onm oad dnm dad) = some (onm, oad, dnm, dad) := by
  rw [parseBlock, splitOnNl_renderBlock onm oad dnm dad h1 h2 h3 h4]
  simp [stripLabel_append]

/-- Witness for C8 at concrete newline-free fields. -/
theorem C8_witness :
    parseBlock (renderBlock "A".toList "B".toList "C".toList "D".toList) =
      some ("A".toList, "B".toList, "C".toList, "D".toList) :=
  C8_amended_round_trip "A".toList "B".toList "C".toList "D".toList
    (by decide) (by decide) (by decide) (by decide)

/-- Claim C9: with well-formed arguments, a run whose responses contain
no transport failure completes with a matrix in which every no-route
pair keeps its initialized 0 and is recorded as a warning, while the
presence of any transport failure among the queried pairs aborts the
whole computation with a provider error and no matrix is returned. -/
theorem C9_provider_failures (origin_addresses origin_names destination_addresses
    destination_names : List Str) (apikey : Str) (provider : Nat → Nat → ApiResponse)
    (h1 : origin_names.length = origin_addresses.length)
    (h2 : destination_names.length = destination_addresses.length)
    (h3 : apikey ≠ []) :
    ((∀ i j, i < origin_addresses.length → j < destination_addresses.length →
        isHttpFailure (provider i j) = false) →
      ∃ df warns,
        time_to_destinations origin_addresses origin_names destination_addresses
            destination_names apikey provider =
          (all_pairs origin_addresses.length destination_addresses.length,
            Except.ok (df, warns)) ∧
        ∀ i j s, i < origin_addresses.length → j < destination_addresses.length →
          provider i j = ApiResponse.noRoute s →
          df.entry i j = 0 ∧ ((i, j), s) ∈ warns) ∧
    ((∃ i j, i < origin_addresses.length ∧ j < destination_addresses.length ∧
        isHttpFailure (provider i j) = true) →
      ∃ c, (time_to_destinations origin_addresses origin_names destination_addresses
          destination_names apikey provider).2 =
        Except.error (TTDError.providerError c)) := by
  have httd : time_to_destinations origin_addresses origin_names destination_addresses
      destination_names apikey provider =
      match run_pairs provider
          (all_pairs origin_addresses.length destination_addresses.length)
          (fun _ _ => 0) [] [] with
      | (log, Except.ok (arr, warns)) =>
        (log, Except.ok (⟨origin_addresses.length, destination_addresses.length, arr⟩, warns))
      | (log, Except.error e) => (log, Except.error e) := by
    rw [time_to_destinations]
    simp [h1, h2, h3]
  constructor
  · intro hnofail
    have hall : ∀ p ∈ all_pairs origin_addresses.length destination_addresses.length,
        isHttpFailure (provider p.1 p.2) = false := by
      rintro ⟨i, j⟩ hp
      obtain ⟨hi, hj⟩ := (mem_all_pairs _ _ i j).mp hp
      exact hnofail i j hi hj
    have hok := run_pairs_ok provider
      (all_pairs origin_addresses.length destination_addresses.length)
      (fun _ _ => 0) [] [] hall
    refine ⟨⟨origin_addresses.length, destination_addresses.length,
        apply_pairs provider (all_pairs origin_addresses.length destination_addresses.length)
          (fun _ _ => 0)⟩,
      warns_of provider (all_pairs origin_addresses.length destination_addresses.length),
      ?_, ?_⟩
    · rw [httd, hok]
      simp
    · intro i j s hi hj hpr
      constructor
      · have hmem := (mem_all_pairs origin_addresses.length destination_addresses.length
          i j).mpr ⟨hi, hj⟩
        have happ := apply_pairs_mem provider
          (all_pairs origin_addresses.length destination_addresses.length)
          (fun _ _ => 0) i j
          (nodup_all_pairs _ _) hmem
        rw [hpr] at happ
        simpa using happ
      · exact (mem_warns_of provider _ i j s).mpr
          ⟨(mem_all_pairs _ _ i j).mpr ⟨hi, hj⟩, hpr⟩
  · rintro ⟨i, j, hi, hj, hfail⟩
    obtain ⟨log', c, hrp⟩ := run_pairs_err provider
      (all_pairs origin_addresses.length destination_addresses.length)
      (fun _ _ => 0) [] []
      ⟨(i, j), (mem_all_pairs _ _ i j).mpr ⟨hi, hj⟩, hfail⟩
    refine ⟨c, ?_⟩
    rw [httd, hrp]

/-- Witness for C9 at a one-origin, one-destination instance, once with a
provider that reports no route anywhere and once with a provider whose
responses are transport failures. -/
theorem C9_witness :
    (∃ df warns,
      time_to_destinations ["A".toList] ["B".toList] ["C".toList] ["D".toList]
          "K".toList provider_no_route =
        (all_pairs 1 1, Except.ok (df, warns)) ∧
      ∀ i j s, i < 1 → j < 1 →
        provider_no_route i j = ApiResponse.noRoute s →
        df.entry i j = 0 ∧ ((i, j), s) ∈ warns) ∧
    (∃ c, (time_to_destinations ["A".toList] ["B".toList] ["C".toList] ["D".toList]
        "K".toList provider_transport_fail).2 =
      Except.error (TTDError.providerError c)) := by
  constructor
  · exact (C9_provider_failures ["A".toList] ["B".toList] ["C".toList] ["D".toList]
      "K".toList provider_no_route rfl rfl (by decide)).1 fun _ _ _ _ => rfl
  · exact (C9_provider_failures ["A".toList] ["B".toList] ["C".toList] ["D".toList]
      "K".toList provider_transport_fail rfl rfl (by decide)).2
      ⟨0, 0, by decide, by decide, rfl⟩

/-- Claim C10: a mismatch between either name list and its address list,
or an empty credential, makes `time_to_destinations` fail with the
InvalidArgument error while the request log stays empty - no network
call is issued. -/
theorem C10_arg_checks (origin_addresses origin_names destination_addresses
    destination_names : List Str) (apikey : Str) (provider : Nat → Nat → ApiResponse)
    (h : origin_names.length ≠ origin_addresses.length ∨
      destination_names.length ≠ destination_addresses.length ∨ apikey = []) :
    time_to_destinations origin_addresses origin_names destination_addresses
        destination_names apikey provider =
      ([], Except.error TTDError.invalidArgument) := by
  rw [time_to_destinations]
  rcases h with h | h | h
  · simp [h]
  · by_cases hA : origin_names.length ≠ origin_addresses.length
    · simp [hA]
    · simp [hA, h]
  · by_cases hA : origin_names.length ≠ origin_addresses.length
    · simp [hA]
    · by_cases hB : destination_names.length ≠ destination_addresses.length
      · simp [hA, hB]
      · simp [hA, hB, h]

/-- Witness for C10: one origin address with an empty origin-name list. -/
theorem C10_witness :
    ((["N".toList, "M".toList] : List Str).length ≠ ([("A".toList : Str)] : List Str).length ∨
      ([] : List Str).length ≠ ([] : List Str).length ∨ ("K".toList : Str) = []) ∧
    time_to_destinations [("A".toList : Str)] ["N".toList, "M".toList] [] []
        "K".toList provider_all_ok =
      ([], Except.error TTDError.invalidArgument) :=
  ⟨Or.inl (by decide),
    C10_arg_checks [("A".toList : Str)] ["N".toList, "M".toList] [] []
      "K".toList provider_all_ok (Or.inl (by decide))⟩

end CompAnalysis
